import Mathlib

set_option maxHeartbeats 1600000

/- Shallow embedding of `src/main.rs`, a Sokoban-style terminal game.

   The Rust `Stage` struct holds `objects : [Object; STAGEWIDTH * STAGEHEIGHT]`
   with `STAGEWIDTH = 10`, `STAGEHEIGHT = 8`; we model the array as a
   `List Object` (of length 80 in every state the program builds).
   Rust panics — an out-of-bounds array index, or a `HashMap` lookup of a
   missing key — abort the program; fallible operations therefore return
   `Option`, with `none` meaning the program panics. -/

inductive Object : Type
  | ObjSpace
  | ObjWall
  | ObjGoal
  | ObjBlock
  | ObjBlockOnGoal
  | ObjMan
  | ObjManOnGoal
  | ObjUnknown
  deriving DecidableEq, Repr

open Object

def STAGEWIDTH : Nat := 10

def STAGEHEIGHT : Nat := 8

/-- The embedded level literal `STAGEDATA` from `main.rs`, as its character
    sequence. -/
def STAGEDATA : List Char :=
  ("##########\n# ..   p #\n# oo . o #\n#  o     #\n#    . o #\n#    .   #\n#        #\n##########").toList

/-- The `object_map` HashMap built in `Stage::initialize`; indexing the map
    with a missing key panics in Rust, hence `none` for any other character. -/
def charToObject : Char → Option Object
  | ' ' => some ObjSpace
  | '#' => some ObjWall
  | '.' => some ObjGoal
  | 'o' => some ObjBlock
  | 'O' => some ObjBlockOnGoal
  | 'p' => some ObjMan
  | 'P' => some ObjManOnGoal
  | _ => none

/-- Split a character sequence at every newline (the components of
    `str::split('\n')`, trailing empty component included). -/
def splitNl : List Char → List (List Char)
  | [] => [[]]
  | c :: rest =>
    if c = '\n' then [] :: splitNl rest
    else
      match splitNl rest with
      | [] => [[c]]
      | l :: ls => (c :: l) :: ls

/-- Drop a single trailing carriage return, as `str::lines` does per line. -/
def stripCr (l : List Char) : List Char :=
  if l.getLast? = some '\x0d' then l.dropLast else l

/-- Rust `str::lines`: split on newlines, drop the trailing empty component
    produced by a final newline, strip a trailing carriage return per line. -/
def rustLines (s : List Char) : List (List Char) :=
  let parts := splitNl s
  let parts := if parts.getLast? = some [] then parts.dropLast else parts
  parts.map stripCr

/-- The inner loop of `Stage::initialize`: one write
    `self.objects[y*STAGEWIDTH + x] = object_map[&data]` per character of a
    line, at consecutive flat indices starting from `i = y*STAGEWIDTH`.
    `none` models a panic: an unrecognized character, or a write index at or
    beyond the array length. -/
def writeLine : List Object → Nat → List Char → Option (List Object)
  | g, _, [] => some g
  | g, i, c :: cs =>
    match charToObject c with
    | none => none
    | some o => if i < g.length then writeLine (g.set i o) (i + 1) cs else none

/-- The outer loop of `Stage::initialize`: process the lines in order, line
    `y` starting at flat index `y * STAGEWIDTH`. -/
def writeLines : List Object → Nat → List (List Char) → Option (List Object)
  | g, _, [] => some g
  | g, y, l :: ls =>
    match writeLine g (y * STAGEWIDTH) l with
    | none => none
    | some g1 => writeLines g1 (y + 1) ls

/-- `Stage::initialize` generalized over the source text it parses (the Rust
    function hardcodes `STAGEDATA`; the loop body is otherwise identical).
    `initialize` is a Lean keyword, hence the name `parseSrc`. -/
def parseSrc (src : List Char) (g : List Object) : Option (List Object) :=
  writeLines g 0 (rustLines src)

/-- `Stage::initialize` exactly as written: parse the embedded `STAGEDATA`
    over the current object array. -/
def parseStage (g : List Object) : Option (List Object) :=
  parseSrc STAGEDATA g

/-- The grid produced by running `Stage::initialize` on the freshly
    `Default`-initialized array (all `ObjUnknown`), as `main` does. -/
def stage0 : List Object :=
  (parseStage (List.replicate (STAGEWIDTH * STAGEHEIGHT) ObjUnknown)).getD []

/-- Rust's `as usize` cast of a (64-bit sign-extended) signed integer:
    two's complement, so a negative value becomes a huge index. -/
def asUsize (i : Int) : Nat :=
  if i < 0 then (18446744073709551616 + i).toNat else i.toNat

/-- `Stage::update_goal_for_man`: the written cell becomes `ObjManOnGoal` if
    it held `ObjGoal`, otherwise `ObjMan`. Reading out of bounds panics. -/
def update_goal_for_man (g : List Object) (idx : Nat) : Option (List Object) :=
  match g.get? idx with
  | some ObjGoal => some (g.set idx ObjManOnGoal)
  | some _ => some (g.set idx ObjMan)
  | none => none

/-- `Stage::update_goal_for_block`: the written cell becomes `ObjBlockOnGoal`
    if it held `ObjGoal`, otherwise `ObjBlock`. -/
def update_goal_for_block (g : List Object) (idx : Nat) : Option (List Object) :=
  match g.get? idx with
  | some ObjGoal => some (g.set idx ObjBlockOnGoal)
  | some _ => some (g.set idx ObjBlock)
  | none => none

/-- `Stage::update_block_on_goal`: the cell the pushed block vacates becomes
    `ObjManOnGoal` if it held `ObjBlockOnGoal`, otherwise `ObjMan`. -/
def update_block_on_goal (g : List Object) (idx : Nat) : Option (List Object) :=
  match g.get? idx with
  | some ObjBlockOnGoal => some (g.set idx ObjManOnGoal)
  | some _ => some (g.set idx ObjMan)
  | none => none

/-- `Stage::update_man_on_goal`: the cell the player vacates becomes
    `ObjGoal` if it held `ObjManOnGoal`, otherwise `ObjSpace`. -/
def update_man_on_goal (g : List Object) (idx : Nat) : Option (List Object) :=
  match g.get? idx with
  | some ObjManOnGoal => some (g.set idx ObjGoal)
  | some _ => some (g.set idx ObjSpace)
  | none => none

/-- `Stage::action`, transcribed clause for clause. The first bounds check
    compares the target coordinates against `[0,W) × [0,H)`; the second —
    the check for the push destination — compares `tp + dx` and `tp + dy`
    (flat index plus delta, as the Rust does) against `[0, W*H)`, and the
    push destination index `tp2` is then computed from the coordinates and
    cast with `as usize`. -/
def action (g : List Object) (x dx y dy : Int) : Option (List Object) :=
  let tx := x + dx
  let ty := y + dy
  if tx < 0 ∨ ty < 0 ∨ (STAGEWIDTH : Int) ≤ tx ∨ (STAGEHEIGHT : Int) ≤ ty then
    some g
  else
    let p := asUsize (y * (STAGEWIDTH : Int) + x)
    let tp := asUsize (ty * (STAGEWIDTH : Int) + tx)
    match g.get? tp with
    | some ObjSpace | some ObjGoal =>
      match update_goal_for_man g tp with
      | none => none
      | some g1 => update_man_on_goal g1 p
    | some ObjBlock | some ObjBlockOnGoal =>
      let tx2 : Int := (tp : Int) + dx
      let ty2 : Int := (tp : Int) + dy
      if tx2 < 0 ∨ ty2 < 0 ∨ ((STAGEWIDTH * STAGEHEIGHT : Nat) : Int) ≤ tx2 ∨
          ((STAGEHEIGHT * STAGEWIDTH : Nat) : Int) ≤ ty2 then
        some g
      else
        let tp2 := asUsize ((ty + dy) * (STAGEWIDTH : Int) + (tx + dx))
        match g.get? tp2 with
        | some ObjSpace | some ObjGoal =>
          match update_goal_for_block g tp2 with
          | none => none
          | some g1 =>
            match update_block_on_goal g1 tp with
            | none => none
            | some g2 => update_man_on_goal g2 p
        | some _ => some g
        | none => none
    | some _ => some g
    | none => none

/-- The predicate of the player-locating scan in `Stage::update` (its two
    `if let` arms: `ObjMan` and `ObjManOnGoal`). -/
def isPlayerB : Object → Bool
  | ObjMan => true
  | ObjManOnGoal => true
  | _ => false

/-- The scan in `Stage::update`: `idx` starts at `0` and the loop breaks at
    the first cell holding `ObjMan` or `ObjManOnGoal`; with no such cell
    `idx` stays `0`. -/
def findMan (g : List Object) : Nat :=
  (g.findIdx? isPlayerB).getD 0

/-- `Stage::reset`: re-run `Stage::initialize` on the current array (the
    subsequent `draw` call only prints). -/
def reset (g : List Object) : Option (List Object) :=
  parseStage g

/-- `Stage::update`: map the command character to deltas (`'r'` resets and
    returns; an unrecognized character only prints an error, leaving
    `dx = dy = 0`), locate the player, and run `Stage::action`. -/
def update (g : List Object) (input : Char) : Option (List Object) :=
  if input = 'r' then reset g
  else
    let dx : Int := if input = 'a' then -1 else if input = 's' then 1 else 0
    let dy : Int := if input = 'w' then -1 else if input = 'z' then 1 else 0
    let idx := findMan g
    action g ((idx % STAGEWIDTH : Nat) : Int) dx ((idx / STAGEWIDTH : Nat) : Int) dy

/-- `Stage::check_clear`: return `false` at the first `ObjBlock`, `true` if
    the loop finishes. Takes the grid by shared reference in Rust (a pure
    query). -/
def check_clear (g : List Object) : Bool :=
  g.all fun o =>
    match o with
    | ObjBlock => false
    | _ => true

/-- A whole play session from the initial grid: fold `Stage::update` over a
    sequence of command characters; `none` if any step panics. -/
def run (cs : List Char) : Option (List Object) :=
  List.foldlM update stage0 cs


/-- Translate every character of a line, `none` if any is unrecognized. -/
def mapChars : List Char → Option (List Object)
  | [] => some []
  | c :: cs =>
    match charToObject c, mapChars cs with
    | some o, some os => some (o :: os)
    | _, _ => none

/-- Translate every line of a source, `none` if any character is
    unrecognized. -/
def mapRows : List (List Char) → Option (List (List Object))
  | [] => some []
  | r :: rs =>
    match mapChars r, mapRows rs with
    | some os, some oss => some (os :: oss)
    | _, _ => none


/-! Basic list helpers used throughout. -/

theorem get?_set_self {α : Type} (g : List α) (i : Nat) (v : α) (h : i < g.length) :
    (g.set i v).get? i = some v := by
  induction g generalizing i with
  | nil => simp at h
  | cons a l ih =>
    cases i with
    | zero => rfl
    | succ n => exact ih n (by simp at h; omega)

theorem get?_set_other {α : Type} (g : List α) (i j : Nat) (v : α) (h : i ≠ j) :
    (g.set i v).get? j = g.get? j := by
  induction g generalizing i j with
  | nil => simp
  | cons a l ih =>
    cases i with
    | zero => cases j with
      | zero => exact absurd rfl h
      | succ m => rfl
    | succ n => cases j with
      | zero => rfl
      | succ m => exact ih n m (by omega)

theorem set_of_get? {α : Type} (g : List α) (i : Nat) (v : α) (h : g.get? i = some v) :
    g.set i v = g := by
  induction g generalizing i with
  | nil => simp
  | cons a l ih =>
    cases i with
    | zero => simp at h; simp [h]
    | succ n => simp only [List.set_cons_succ]; rw [ih n h]

theorem length_set_eq {α : Type} (g : List α) (i : Nat) (v : α) :
    (g.set i v).length = g.length := by
  simp

theorem countP_set_eq (p : Object → Bool) (g : List Object) (i : Nat) (v w : Object)
    (h : g.get? i = some w) :
    (g.set i v).countP p + (if p w then 1 else 0) = g.countP p + (if p v then 1 else 0) := by
  induction g generalizing i with
  | nil => simp at h
  | cons a l ih =>
    cases i with
    | zero =>
      simp only [List.get?] at h
      injection h with h; subst h
      simp only [List.set_cons_zero, List.countP_cons]
      omega
    | succ n =>
      have h' : l.get? n = some w := h
      have hrec := ih n h'
      simp only [List.set_cons_succ, List.countP_cons]
      omega

theorem asUsize_of_nonneg (i : Int) (h : 0 ≤ i) : asUsize i = i.toNat := by
  unfold asUsize
  rw [if_neg (by omega)]

/-! Length preservation: every mutation in the program is a `List.set` (the
    Rust array never changes size), so each operation keeps the length. -/

theorem update_goal_for_man_length {g g' : List Object} {i : Nat}
    (h : update_goal_for_man g i = some g') : g'.length = g.length := by
  unfold update_goal_for_man at h
  split at h
  · injection h with h; subst h; simp
  · injection h with h; subst h; simp
  · exact Option.noConfusion h

theorem update_goal_for_block_length {g g' : List Object} {i : Nat}
    (h : update_goal_for_block g i = some g') : g'.length = g.length := by
  unfold update_goal_for_block at h
  split at h
  · injection h with h; subst h; simp
  · injection h with h; subst h; simp
  · exact Option.noConfusion h

theorem update_block_on_goal_length {g g' : List Object} {i : Nat}
    (h : update_block_on_goal g i = some g') : g'.length = g.length := by
  unfold update_block_on_goal at h
  split at h
  · injection h with h; subst h; simp
  · injection h with h; subst h; simp
  · exact Option.noConfusion h

theorem update_man_on_goal_length {g g' : List Object} {i : Nat}
    (h : update_man_on_goal g i = some g') : g'.length = g.length := by
  unfold update_man_on_goal at h
  split at h
  · injection h with h; subst h; simp
  · injection h with h; subst h; simp
  · exact Option.noConfusion h

theorem action_length {g g' : List Object} {x dx y dy : Int}
    (h : action g x dx y dy = some g') : g'.length = g.length := by
  simp only [action] at h
  repeat' split at h
  all_goals first
    | exact Option.noConfusion h
    | (injection h with h; subst h; rfl)
    | (rename_i x1 g1 hg1
       have h1 := update_goal_for_man_length hg1
       have h2 := update_man_on_goal_length h
       omega)
    | (rename_i x1 g1 hg1 x2 g2 hg2
       have h1 := update_goal_for_block_length hg1
       have h2 := update_block_on_goal_length hg2
       have h3 := update_man_on_goal_length h
       omega)

theorem writeLine_length : ∀ (cs : List Char) (g g' : List Object) (i : Nat),
    writeLine g i cs = some g' → g'.length = g.length := by
  intro cs
  induction cs with
  | nil =>
    intro g g' i h
    injection h with h
    subst h; rfl
  | cons c cs ih =>
    intro g g' i h
    unfold writeLine at h
    split at h
    · exact Option.noConfusion h
    · split at h
      · have := ih _ _ _ h
        simpa using this
      · exact Option.noConfusion h

theorem writeLines_length : ∀ (ls : List (List Char)) (g g' : List Object) (y : Nat),
    writeLines g y ls = some g' → g'.length = g.length := by
  intro ls
  induction ls with
  | nil =>
    intro g g' y h
    injection h with h
    subst h; rfl
  | cons l ls ih =>
    intro g g' y h
    unfold writeLines at h
    split at h
    · exact Option.noConfusion h
    · rename_i g1 hg1
      have h1 := writeLine_length _ _ _ _ hg1
      have h2 := ih _ _ _ h
      omega

/-! Full-coverage parsing: a line whose characters all map writes them at
    consecutive indices, replacing that segment of the grid; the embedded
    `STAGEDATA` covers all 80 cells, so `Stage::initialize` replaces the
    whole array regardless of its prior contents. -/

theorem mapChars_length : ∀ (cs : List Char) (os : List Object),
    mapChars cs = some os → os.length = cs.length := by
  intro cs
  induction cs with
  | nil =>
    intro os h
    injection h with h
    subst h
    rfl
  | cons c cs ih =>
    intro os h
    unfold mapChars at h
    split at h
    · rename_i o os' ho hos
      injection h with h
      subst h
      simp [ih os' hos]
    · exact Option.noConfusion h

theorem writeLine_cons (g : List Object) (i : Nat) (c : Char) (cs : List Char) (o : Object)
    (ho : charToObject c = some o) (hi : i < g.length) :
    writeLine g i (c :: cs) = writeLine (g.set i o) (i + 1) cs := by
  conv_lhs => unfold writeLine
  rw [ho]
  simp [hi]

theorem writeLine_oob (g : List Object) (i : Nat) (c : Char) (cs : List Char)
    (h : g.length ≤ i) : writeLine g i (c :: cs) = none := by
  conv_lhs => unfold writeLine
  cases ho : charToObject c <;> simp [Nat.not_lt.mpr h]

theorem writeLines_cons (g : List Object) (y : Nat) (l : List Char) (ls : List (List Char)) :
    writeLines g y (l :: ls) =
      match writeLine g (y * STAGEWIDTH) l with
      | none => none
      | some g1 => writeLines g1 (y + 1) ls := by
  rfl

/-- A line of recognized characters writes its translation over the grid
    segment starting at `i`, untouched elsewhere. -/
theorem writeLine_cover : ∀ (cs : List Char) (os g : List Object) (i : Nat),
    mapChars cs = some os → i + cs.length ≤ g.length →
    writeLine g i cs = some (g.take i ++ os ++ g.drop (i + cs.length)) := by
  intro cs
  induction cs with
  | nil =>
    intro os g i hm hlen
    injection hm with hm
    subst hm
    simp [writeLine]
  | cons c cs ih =>
    intro os g i hm hlen
    unfold mapChars at hm
    split at hm
    · rename_i o os' ho hos
      injection hm with hm
      subst hm
      have hi : i < g.length := by simp at hlen; omega
      rw [writeLine_cons g i c cs o ho hi]
      have hlen' : (i + 1) + cs.length ≤ (g.set i o).length := by
        simp at hlen ⊢
        omega
      rw [ih os' (g.set i o) (i + 1) hos hlen']
      rw [List.set_eq_take_cons_drop o hi]
      have hlenA : (g.take i).length = i := by
        simp [List.length_take]
        omega
      have hT : List.take (i + 1) (g.take i ++ o :: g.drop (i + 1)) = g.take i ++ [o] := by
        rw [List.take_append_eq_append_take, hlenA]
        have e1 : i + 1 - i = 1 := by omega
        have e2 : List.take (i + 1) (g.take i) = g.take i := by
          rw [List.take_take]
          congr 1
          omega
        rw [e1, e2]
        rfl
      have hD : List.drop (i + 1 + cs.length) (g.take i ++ o :: g.drop (i + 1)) =
          g.drop (i + (cs.length + 1)) := by
        rw [List.drop_append_eq_append_drop, hlenA]
        have e3 : List.drop (i + 1 + cs.length) (g.take i) = [] :=
          List.drop_eq_nil_of_le (by omega)
        have e4 : i + 1 + cs.length - i = cs.length + 1 := by omega
        have e5 : List.drop (cs.length + 1) (o :: g.drop (i + 1)) =
            List.drop cs.length (g.drop (i + 1)) := rfl
        rw [e3, e4, List.nil_append, e5, List.drop_drop]
        congr 1
        omega
      rw [hT, hD]
      simp [List.append_assoc]
    · exact Option.noConfusion hm

theorem writeLines_step_some (g g1 : List Object) (y : Nat) (l : List Char)
    (ls : List (List Char)) (h : writeLine g (y * STAGEWIDTH) l = some g1) :
    writeLines g y (l :: ls) = writeLines g1 (y + 1) ls := by
  conv_lhs => unfold writeLines
  rw [h]

theorem writeLines_step_none (g : List Object) (y : Nat) (l : List Char)
    (ls : List (List Char)) (h : writeLine g (y * STAGEWIDTH) l = none) :
    writeLines g y (l :: ls) = none := by
  conv_lhs => unfold writeLines
  rw [h]

/-- Rows of full width, all of whose characters map, replace the grid from
    row `y` on: the outer parsing loop overwrites that whole region. -/
theorem writeLines_cover : ∀ (rows : List (List Char)) (oss : List (List Object)) (y : Nat)
    (g : List Object),
    mapRows rows = some oss → (∀ r ∈ rows, r.length = STAGEWIDTH) →
    (y + rows.length) * STAGEWIDTH ≤ g.length →
    writeLines g y rows =
      some (g.take (y * STAGEWIDTH) ++ oss.flatten ++ g.drop ((y + rows.length) * STAGEWIDTH)) := by
  have hW : STAGEWIDTH = 10 := rfl
  intro rows
  induction rows with
  | nil =>
    intro oss y g hm _ hlen
    injection hm with hm
    subst hm
    simp [writeLines]
  | cons r rs ih =>
    intro oss y g hm hw hlen
    unfold mapRows at hm
    split at hm
    · rename_i os oss' hos hoss
      injection hm with hm
      subst hm
      have hr : r.length = STAGEWIDTH := hw r (List.mem_cons_self r rs)
      have hosl : os.length = STAGEWIDTH := by rw [mapChars_length r os hos, hr]
      have hlen' : (y + (rs.length + 1)) * STAGEWIDTH ≤ g.length := by
        simpa using hlen
      have hbound : y * STAGEWIDTH + STAGEWIDTH ≤ g.length := by
        rw [hW] at hlen' ⊢
        omega
      have hstep : writeLine g (y * STAGEWIDTH) r =
          some (g.take (y * STAGEWIDTH) ++ os ++ g.drop (y * STAGEWIDTH + STAGEWIDTH)) := by
        have h1 := writeLine_cover r os g (y * STAGEWIDTH) hos (by rw [hr]; exact hbound)
        rw [hr] at h1
        exact h1
      rw [writeLines_step_some g _ y r rs hstep]
      have hg1len : (g.take (y * STAGEWIDTH) ++ os ++ g.drop (y * STAGEWIDTH + STAGEWIDTH)).length
          = g.length := by
        simp only [List.length_append, List.length_take, List.length_drop, hosl]
        rw [hW] at hbound ⊢
        omega
      have hw' : ∀ r' ∈ rs, r'.length = STAGEWIDTH := fun r' hr' => hw r' (List.mem_cons_of_mem r hr')
      have hlen1 : ((y + 1) + rs.length) * STAGEWIDTH ≤
          (g.take (y * STAGEWIDTH) ++ os ++ g.drop (y * STAGEWIDTH + STAGEWIDTH)).length := by
        rw [hg1len, hW]
        rw [hW] at hlen'
        omega
      rw [ih oss' (y + 1) _ hoss hw' hlen1]
      congr 1
      have hAlen : (g.take (y * STAGEWIDTH)).length = y * STAGEWIDTH := by
        simp only [List.length_take]
        rw [hW] at hbound ⊢
        omega
      have hTake : (g.take (y * STAGEWIDTH) ++ os ++ g.drop (y * STAGEWIDTH + STAGEWIDTH)).take
          ((y + 1) * STAGEWIDTH) = g.take (y * STAGEWIDTH) ++ os := by
        rw [List.append_assoc, List.take_append_eq_append_take, hAlen]
        have e1 : (g.take (y * STAGEWIDTH)).take ((y + 1) * STAGEWIDTH) = g.take (y * STAGEWIDTH) := by
          rw [List.take_take]
          congr 1
          rw [hW]
          omega
        have e2 : (y + 1) * STAGEWIDTH - y * STAGEWIDTH = STAGEWIDTH := by
          rw [hW]
          omega
        rw [e1, e2, List.take_append_eq_append_take, hosl]
        have e3 : os.take STAGEWIDTH = os := by
          rw [← hosl]
          exact List.take_length os
        have e4 : STAGEWIDTH - STAGEWIDTH = 0 := by omega
        rw [e3, e4]
        simp
      have hDrop : (g.take (y * STAGEWIDTH) ++ os ++ g.drop (y * STAGEWIDTH + STAGEWIDTH)).drop
          ((y + 1 + rs.length) * STAGEWIDTH) = g.drop ((y + (rs.length + 1)) * STAGEWIDTH) := by
        rw [List.append_assoc, List.drop_append_eq_append_drop, hAlen]
        have e5 : (g.take (y * STAGEWIDTH)).drop ((y + 1 + rs.length) * STAGEWIDTH) = [] := by
          apply List.drop_eq_nil_of_le
          rw [hAlen, hW]
          omega
        rw [e5, List.drop_append_eq_append_drop, hosl]
        have e6 : os.drop ((y + 1 + rs.length) * STAGEWIDTH - y * STAGEWIDTH) = [] := by
          apply List.drop_eq_nil_of_le
          rw [hosl, hW]
          omega
        rw [e6, List.drop_drop]
        simp only [List.nil_append]
        congr 1
        rw [hW]
        omega
      rw [hTake, hDrop]
      simp [List.append_assoc]
    · exact Option.noConfusion hm

theorem stage0_length : stage0.length = 80 := by decide

/-- `Stage::initialize` on any 80-cell array yields the parsed `STAGEDATA`
    grid: the embedded level has 8 full rows of 10 recognized characters, so
    every cell of the array is overwritten and the prior contents are
    irrelevant. -/
theorem parseStage_covers {g : List Object} (h : g.length = 80) :
    parseStage g = some stage0 := by
  unfold parseStage parseSrc
  have hrows : mapRows (rustLines STAGEDATA) =
      some ((mapRows (rustLines STAGEDATA)).getD []) := by decide
  have hwidth : ∀ r ∈ rustLines STAGEDATA, r.length = STAGEWIDTH := by decide
  have hlen80 : (0 + (rustLines STAGEDATA).length) * STAGEWIDTH ≤ g.length := by
    rw [h]; decide
  rw [writeLines_cover (rustLines STAGEDATA) _ 0 g hrows hwidth hlen80]
  have ht : g.take (0 * STAGEWIDTH) = [] := by
    have : 0 * STAGEWIDTH = 0 := by omega
    rw [this, List.take_zero]
  have hd : g.drop ((0 + (rustLines STAGEDATA).length) * STAGEWIDTH) = [] := by
    apply List.drop_eq_nil_of_le
    rw [h]
    decide
  rw [ht, hd]
  simp only [List.nil_append, List.append_nil]
  decide

theorem reset_covers {g : List Object} (h : g.length = 80) : reset g = some stage0 :=
  parseStage_covers h

theorem update_length {g g' : List Object} {c : Char} (h80 : g.length = 80)
    (h : update g c = some g') : g'.length = 80 := by
  unfold update at h
  split at h
  · rw [reset_covers h80] at h
    injection h with h
    subst h
    exact stage0_length
  · have := action_length h
    omega

theorem foldl_update_length : ∀ (cs : List Char) (g g' : List Object), g.length = 80 →
    List.foldlM update g cs = some g' → g'.length = 80 := by
  intro cs
  induction cs with
  | nil =>
    intro g g' h80 h
    injection h with h
    subst h
    exact h80
  | cons c cs ih =>
    intro g g' h80 h
    rw [List.foldlM_cons] at h
    cases hu : update g c with
    | none => rw [hu] at h; exact Option.noConfusion h
    | some g1 =>
      rw [hu] at h
      exact ih g1 g' (update_length h80 hu) h

theorem run_length {cs : List Char} {g' : List Object} (h : run cs = some g') :
    g'.length = 80 :=
  foldl_update_length cs stage0 g' stage0_length h

/-! Player counting: `Stage::action` always rewrites a non-player cell to a
    player cell and the player's old cell to a non-player cell (plus, for a
    push, a non-player cell to a non-player cell), so the number of
    `ObjMan`/`ObjManOnGoal` cells is invariant. -/

theorem update_goal_for_man_eq {g g' : List Object} {i : Nat}
    (h : update_goal_for_man g i = some g') :
    ∃ w v, g.get? i = some w ∧ g' = g.set i v ∧ isPlayerB v = true := by
  unfold update_goal_for_man at h
  split at h
  · rename_i heq
    injection h with h
    exact ⟨ObjGoal, ObjManOnGoal, heq, h.symm, rfl⟩
  · rename_i w hne heq
    injection h with h
    exact ⟨w, ObjMan, heq, h.symm, rfl⟩
  · exact Option.noConfusion h

theorem update_goal_for_block_eq {g g' : List Object} {i : Nat}
    (h : update_goal_for_block g i = some g') :
    ∃ w v, g.get? i = some w ∧ g' = g.set i v ∧ isPlayerB v = false := by
  unfold update_goal_for_block at h
  split at h
  · rename_i heq
    injection h with h
    exact ⟨ObjGoal, ObjBlockOnGoal, heq, h.symm, rfl⟩
  · rename_i w hne heq
    injection h with h
    exact ⟨w, ObjBlock, heq, h.symm, rfl⟩
  · exact Option.noConfusion h

theorem update_block_on_goal_eq {g g' : List Object} {i : Nat}
    (h : update_block_on_goal g i = some g') :
    ∃ w v, g.get? i = some w ∧ g' = g.set i v ∧ isPlayerB v = true := by
  unfold update_block_on_goal at h
  split at h
  · rename_i heq
    injection h with h
    exact ⟨ObjBlockOnGoal, ObjManOnGoal, heq, h.symm, rfl⟩
  · rename_i w hne heq
    injection h with h
    exact ⟨w, ObjMan, heq, h.symm, rfl⟩
  · exact Option.noConfusion h

theorem update_man_on_goal_eq {g g' : List Object} {i : Nat}
    (h : update_man_on_goal g i = some g') :
    ∃ w v, g.get? i = some w ∧ g' = g.set i v ∧ isPlayerB v = false := by
  unfold update_man_on_goal at h
  split at h
  · rename_i heq
    injection h with h
    exact ⟨ObjManOnGoal, ObjGoal, heq, h.symm, rfl⟩
  · rename_i w hne heq
    injection h with h
    exact ⟨w, ObjSpace, heq, h.symm, rfl⟩
  · exact Option.noConfusion h

/-- A plain move (target Space or Goal) keeps the player count: the target
    cell gains a player, the vacated cell loses one. -/
theorem man_move_count {g g1 g' : List Object} {tp p : Nat} {w op : Object}
    (htp : g.get? tp = some w) (hw : isPlayerB w = false)
    (hp : g.get? p = some op) (hop : isPlayerB op = true)
    (h1 : update_goal_for_man g tp = some g1)
    (h2 : update_man_on_goal g1 p = some g') :
    g'.countP isPlayerB = g.countP isPlayerB := by
  obtain ⟨w1, v1, hw1, hg1, hv1⟩ := update_goal_for_man_eq h1
  rw [htp] at hw1
  injection hw1 with hw1
  subst hw1
  have htpne : tp ≠ p := by
    intro he
    subst he
    rw [htp] at hp
    injection hp with hpe
    subst hpe
    rw [hw] at hop
    exact Bool.noConfusion hop
  have hc1 := countP_set_eq isPlayerB g tp v1 w htp
  rw [hv1] at hc1
  subst hg1
  obtain ⟨w2, v2, hw2, hg', hv2⟩ := update_man_on_goal_eq h2
  rw [get?_set_other g tp p v1 htpne, hp] at hw2
  injection hw2 with hw2
  subst hw2
  have hc2 := countP_set_eq isPlayerB (g.set tp v1) p v2 op (by
    rw [get?_set_other g tp p v1 htpne]
    exact hp)
  rw [hv2, hop] at hc2
  subst hg'
  rw [hw] at hc1
  omega

/-- A push (target Block or BlockOnGoal, destination Space or Goal) keeps
    the player count: destination gains a block, target turns into the
    player, the vacated cell loses the player. -/
theorem push_move_count {g g1 g2 g' : List Object} {tp tp2 p : Nat} {w u op : Object}
    (htp : g.get? tp = some w) (hwB : w = ObjBlock ∨ w = ObjBlockOnGoal)
    (htp2 : g.get? tp2 = some u) (huSG : u = ObjSpace ∨ u = ObjGoal)
    (hp : g.get? p = some op) (hop : isPlayerB op = true)
    (h1 : update_goal_for_block g tp2 = some g1)
    (h2 : update_block_on_goal g1 tp = some g2)
    (h3 : update_man_on_goal g2 p = some g') :
    g'.countP isPlayerB = g.countP isPlayerB := by
  have hwP : isPlayerB w = false := by rcases hwB with h | h <;> subst h <;> rfl
  have huP : isPlayerB u = false := by rcases huSG with h | h <;> subst h <;> rfl
  have htp2_ne_tp : tp2 ≠ tp := by
    intro he
    subst he
    rw [htp] at htp2
    injection htp2 with he2
    subst he2
    rcases hwB with h | h <;> rcases huSG with h' | h' <;> subst h <;> exact Object.noConfusion h'
  have htp_ne_p : tp ≠ p := by
    intro he
    subst he
    rw [htp] at hp
    injection hp with he2
    subst he2
    rw [hwP] at hop
    exact Bool.noConfusion hop
  have htp2_ne_p : tp2 ≠ p := by
    intro he
    subst he
    rw [htp2] at hp
    injection hp with he2
    subst he2
    rw [huP] at hop
    exact Bool.noConfusion hop
  obtain ⟨w1, v1, hw1, hg1, hv1⟩ := update_goal_for_block_eq h1
  rw [htp2] at hw1
  injection hw1 with hw1
  subst hw1
  have hc1 := countP_set_eq isPlayerB g tp2 v1 u htp2
  rw [hv1, huP] at hc1
  subst hg1
  obtain ⟨w2, v2, hw2, hg2, hv2⟩ := update_block_on_goal_eq h2
  rw [get?_set_other g tp2 tp v1 htp2_ne_tp, htp] at hw2
  injection hw2 with hw2
  subst hw2
  have hc2 := countP_set_eq isPlayerB (g.set tp2 v1) tp v2 w (by
    rw [get?_set_other g tp2 tp v1 htp2_ne_tp]
    exact htp)
  rw [hv2, hwP] at hc2
  subst hg2
  obtain ⟨w3, v3, hw3, hg', hv3⟩ := update_man_on_goal_eq h3
  rw [get?_set_other _ tp p v2 htp_ne_p, get?_set_other g tp2 p v1 htp2_ne_p, hp] at hw3
  injection hw3 with hw3
  subst hw3
  have hc3 := countP_set_eq isPlayerB ((g.set tp2 v1).set tp v2) p v3 op (by
    rw [get?_set_other _ tp p v2 htp_ne_p, get?_set_other g tp2 p v1 htp2_ne_p]
    exact hp)
  rw [hv3, hop] at hc3
  subst hg'
  omega

theorem action_count {g g' : List Object} {x dx y dy : Int} {op : Object}
    (hp : g.get? (asUsize (y * (STAGEWIDTH : Int) + x)) = some op)
    (hop : isPlayerB op = true)
    (h : action g x dx y dy = some g') :
    g'.countP isPlayerB = g.countP isPlayerB := by
  simp only [action] at h
  repeat' split at h
  all_goals first
    | exact Option.noConfusion h
    | (injection h with h; subst h; rfl)
    | (rename_i x1 hsp x2 g1 hg1
       exact man_move_count hsp rfl hp hop hg1 h)
    | (rename_i x3 htpB hif x2 htp2 x1 g1 hg1 x0 g2 hg2
       exact push_move_count htpB (by first | exact Or.inl rfl | exact Or.inr rfl)
         htp2 (by first | exact Or.inl rfl | exact Or.inr rfl) hp hop hg1 hg2 h)

theorem findMan_mem {g : List Object} (h : g.countP isPlayerB = 1) :
    ∃ o, g.get? (findMan g) = some o ∧ isPlayerB o = true := by
  have hex : ∃ a ∈ g, isPlayerB a := by
    by_contra hno
    push_neg at hno
    have hz : g.countP isPlayerB = 0 := by
      rw [List.countP_eq_zero]
      exact fun a ha => by simpa using hno a ha
    omega
  have hsome : (g.findIdx? isPlayerB).isSome = true := by
    rw [List.findIdx?_isSome, List.any_eq_true]
    obtain ⟨a, ha, hpa⟩ := hex
    exact ⟨a, ha, hpa⟩
  obtain ⟨i, hi⟩ := Option.isSome_iff_exists.mp hsome
  have hfm : findMan g = i := by unfold findMan; rw [hi]; rfl
  rw [List.findIdx?_eq_some_iff_getElem] at hi
  obtain ⟨hlt, hpi, hmin⟩ := hi
  refine ⟨g[i], ?_, hpi⟩
  rw [hfm, List.get?_eq_getElem?, List.getElem?_eq_getElem hlt]

theorem update_count {g g' : List Object} {c : Char} (h80 : g.length = 80)
    (hcount : g.countP isPlayerB = 1) (h : update g c = some g') :
    g'.countP isPlayerB = 1 := by
  unfold update at h
  split at h
  · rw [reset_covers h80] at h
    injection h with h
    subst h
    decide
  · obtain ⟨o, ho, hpo⟩ := findMan_mem hcount
    have hidx : asUsize (((findMan g / STAGEWIDTH : Nat) : Int) * (STAGEWIDTH : Int) +
        ((findMan g % STAGEWIDTH : Nat) : Int)) = findMan g := by
      rw [asUsize_of_nonneg]
      · simp only [STAGEWIDTH]
        omega
      · simp only [STAGEWIDTH]
        omega
    have hp : g.get? (asUsize (((findMan g / STAGEWIDTH : Nat) : Int) * (STAGEWIDTH : Int) +
        ((findMan g % STAGEWIDTH : Nat) : Int))) = some o := by
      rw [hidx]
      exact ho
    have := action_count hp hpo h
    omega

theorem foldl_update_count : ∀ (cs : List Char) (g g' : List Object), g.length = 80 →
    g.countP isPlayerB = 1 → List.foldlM update g cs = some g' →
    g'.countP isPlayerB = 1 := by
  intro cs
  induction cs with
  | nil =>
    intro g g' h80 hc h
    injection h with h
    subst h
    exact hc
  | cons c cs ih =>
    intro g g' h80 hc h
    rw [List.foldlM_cons] at h
    cases hu : update g c with
    | none => rw [hu] at h; exact Option.noConfusion h
    | some g1 =>
      rw [hu] at h
      exact ih g1 g' (update_length h80 hu) (update_count h80 hc hu) h

/-! Forward-computation forms of the four cell updates, and the failure of
    parsing past the end of the array. -/

theorem update_goal_for_man_run {g : List Object} {i : Nat} {w : Object}
    (h : g.get? i = some w) :
    update_goal_for_man g i =
      some (g.set i (if w = ObjGoal then ObjManOnGoal else ObjMan)) := by
  unfold update_goal_for_man
  rw [h]
  cases w <;> simp

theorem update_goal_for_block_run {g : List Object} {i : Nat} {w : Object}
    (h : g.get? i = some w) :
    update_goal_for_block g i =
      some (g.set i (if w = ObjGoal then ObjBlockOnGoal else ObjBlock)) := by
  unfold update_goal_for_block
  rw [h]
  cases w <;> simp

theorem update_block_on_goal_run {g : List Object} {i : Nat} {w : Object}
    (h : g.get? i = some w) :
    update_block_on_goal g i =
      some (g.set i (if w = ObjBlockOnGoal then ObjManOnGoal else ObjMan)) := by
  unfold update_block_on_goal
  rw [h]
  cases w <;> simp

theorem update_man_on_goal_run {g : List Object} {i : Nat} {w : Object}
    (h : g.get? i = some w) :
    update_man_on_goal g i =
      some (g.set i (if w = ObjManOnGoal then ObjGoal else ObjSpace)) := by
  unfold update_man_on_goal
  rw [h]
  cases w <;> simp

/-- Any nonempty row at index 8 or beyond makes `Stage::initialize` panic (or
    the parse fail earlier): its first write index `y * 10 + 0` is at or past
    the end of the 80-cell array. -/
theorem writeLines_overflow : ∀ (rows : List (List Char)) (y : Nat) (g : List Object),
    g.length = 80 → (∃ j l, rows.get? j = some l ∧ l ≠ [] ∧ 8 ≤ y + j) →
    writeLines g y rows = none := by
  intro rows
  induction rows with
  | nil =>
    intro y g _ h
    obtain ⟨j, l, hj, _, _⟩ := h
    simp at hj
  | cons r rs ih =>
    intro y g h80 h
    obtain ⟨j, l, hj, hl, hy⟩ := h
    cases j with
    | zero =>
      simp only [List.get?] at hj
      injection hj with hj
      subst hj
      cases r with
      | nil => exact absurd rfl hl
      | cons c cs =>
        apply writeLines_step_none
        apply writeLine_oob
        rw [h80]
        have hW : STAGEWIDTH = 10 := rfl
        rw [hW]
        omega
    | succ j' =>
      have hj' : rs.get? j' = some l := hj
      cases hw : writeLine g (y * STAGEWIDTH) r with
      | none => exact writeLines_step_none g y r rs hw
      | some g1 =>
        rw [writeLines_step_some g g1 y r rs hw]
        apply ih (y + 1) g1 (by rw [writeLine_length r g g1 _ hw]; exact h80)
        exact ⟨j', l, hj', hl, by omega⟩

/-- With zero deltas (the unrecognized-command case) `Stage::action` targets
    the player's own cell and, whatever it holds, changes nothing. -/
theorem action_zero (g : List Object) (x y : Int) (h80 : g.length = 80) :
    action g x 0 y 0 = some g := by
  simp only [action, Int.add_zero]
  split
  · rfl
  · rename_i hcond
    push_neg at hcond
    obtain ⟨hx0, hy0, hxW, hyH⟩ := hcond
    have hWn : (STAGEWIDTH : Int) = 10 := rfl
    have hHn : (STAGEHEIGHT : Int) = 8 := rfl
    rw [hWn] at hxW
    rw [hHn] at hyH
    have htp_eq : asUsize (y * (STAGEWIDTH : Int) + x) = (y * (STAGEWIDTH : Int) + x).toNat := by
      apply asUsize_of_nonneg
      rw [hWn]
      omega
    have htp_lt : (y * (STAGEWIDTH : Int) + x).toNat < g.length := by
      rw [h80, hWn]
      omega
    have hset_lt : asUsize (y * (STAGEWIDTH : Int) + x) < g.length := by
      rw [htp_eq]
      exact htp_lt
    have hno2 : ¬((asUsize (y * (STAGEWIDTH : Int) + x) : Int) < 0 ∨
        (asUsize (y * (STAGEWIDTH : Int) + x) : Int) < 0 ∨
        ((STAGEWIDTH * STAGEHEIGHT : Nat) : Int) ≤ (asUsize (y * (STAGEWIDTH : Int) + x) : Int) ∨
        ((STAGEHEIGHT * STAGEWIDTH : Nat) : Int) ≤ (asUsize (y * (STAGEWIDTH : Int) + x) : Int)) := by
      push_neg
      rw [htp_eq]
      have hWH : ((STAGEWIDTH * STAGEHEIGHT : Nat) : Int) = 80 := rfl
      have hHW : ((STAGEHEIGHT * STAGEWIDTH : Nat) : Int) = 80 := rfl
      rw [hWH, hHW, hWn]
      refine ⟨by omega, by omega, by omega, by omega⟩
    rcases hw : g.get? (asUsize (y * (STAGEWIDTH : Int) + x)) with _ | w
    · exfalso
      rw [htp_eq, List.get?_eq_getElem?, List.getElem?_eq_getElem htp_lt] at hw
      exact Option.noConfusion hw
    · cases w
      case ObjSpace =>
        simp only [update_goal_for_man_run hw]
        rw [if_neg (by decide : ¬ (ObjSpace = ObjGoal))]
        rw [update_man_on_goal_run (get?_set_self g _ ObjMan hset_lt)]
        rw [if_neg (by decide : ¬ (ObjMan = ObjManOnGoal))]
        rw [List.set_set, set_of_get? g _ ObjSpace hw]
      case ObjGoal =>
        simp only [update_goal_for_man_run hw]
        simp only [if_true]
        rw [update_man_on_goal_run (get?_set_self g _ ObjManOnGoal hset_lt)]
        rw [if_pos (rfl : ObjManOnGoal = ObjManOnGoal)]
        rw [List.set_set, set_of_get? g _ ObjGoal hw]
      case ObjBlock =>
        rw [if_neg hno2]
      case ObjBlockOnGoal =>
        rw [if_neg hno2]
      case ObjWall => rfl
      case ObjMan => rfl
      case ObjManOnGoal => rfl
      case ObjUnknown => rfl

theorem check_clear_iff (g : List Object) : check_clear g = true ↔ ObjBlock ∉ g := by
  unfold check_clear
  rw [List.all_eq_true]
  constructor
  · intro h hmem
    exact Bool.noConfusion (h ObjBlock hmem)
  · intro h o ho
    cases o <;> first | rfl | exact absurd ho h

/-- C7: `Stage::check_clear` returns `true` iff no cell of the grid holds the
    plain `ObjBlock` variant. The Rust function takes `&self` and only reads,
    and is embedded as the pure function `check_clear : List Object → Bool`,
    so it mutates no cell. -/
theorem c7_check_clear_correct (g : List Object) :
    check_clear g = true ↔ ObjBlock ∉ g :=
  check_clear_iff g

/-- C3: for every 80-cell grid and every input character other than
    `a`, `s`, `w`, `z`, `r`, `Stage::update` only reports an input error:
    the grid after the call is identical to the grid before (the move is
    attempted with `dx = dy = 0` and changes nothing). -/
theorem c3_invalid_input_no_mutation {g : List Object} {c : Char}
    (h80 : g.length = 80)
    (ha : c ≠ 'a') (hs : c ≠ 's') (hw : c ≠ 'w') (hz : c ≠ 'z') (hr : c ≠ 'r') :
    update g c = some g := by
  unfold update
  rw [if_neg hr]
  simp only [if_neg ha, if_neg hs, if_neg hw, if_neg hz]
  exact action_zero g _ _ h80

theorem c3_invalid_input_no_mutation_witness : update stage0 'q' = some stage0 :=
  c3_invalid_input_no_mutation stage0_length (by decide) (by decide) (by decide)
    (by decide) (by decide)

/-- C4: after any successfully executed command sequence from the parsed
    initial grid, `Stage::reset` leaves the grid identical to a fresh
    `Stage::initialize` run on a default (all-`ObjUnknown`) array. -/
theorem c4_reset_eq_fresh_parse {cs : List Char} {g' : List Object}
    (h : run cs = some g') :
    reset g' = parseStage (List.replicate (STAGEWIDTH * STAGEHEIGHT) ObjUnknown) := by
  rw [reset_covers (run_length h), parseStage_covers (by decide)]

theorem c4_reset_eq_fresh_parse_witness :
    reset stage0 = parseStage (List.replicate (STAGEWIDTH * STAGEHEIGHT) ObjUnknown) :=
  @c4_reset_eq_fresh_parse [] stage0 rfl

/-- C5: every grid reachable from the parsed initial grid by a successfully
    executed sequence of commands (in particular, of moves) contains exactly
    one cell holding `ObjMan` or `ObjManOnGoal`. -/
theorem c5_exactly_one_player {cs : List Char} {g' : List Object}
    (h : run cs = some g') : g'.countP isPlayerB = 1 :=
  foldl_update_count cs stage0 g' stage0_length (by decide) h

theorem c5_exactly_one_player_witness : ((run ['s']).getD []).countP isPlayerB = 1 :=
  @c5_exactly_one_player ['s'] ((run ['s']).getD []) (by decide)

/-- C10: on a grid with no player cell, `Stage::update` with a direction
    command leaves `idx = 0` after the scan and attempts the move from
    row 0, column 0, rather than rejecting it or reporting the missing
    player. -/
theorem c10_no_player_defaults_to_zero (g : List Object)
    (h : ∀ o ∈ g, isPlayerB o = false) :
    update g 'a' = action g 0 (-1) 0 0 ∧ update g 's' = action g 0 1 0 0 ∧
    update g 'w' = action g 0 0 0 (-1) ∧ update g 'z' = action g 0 0 0 1 := by
  have hfm : findMan g = 0 := by
    unfold findMan
    have hnone : g.findIdx? isPlayerB = none := by
      rw [List.findIdx?_eq_none_iff]
      exact h
    rw [hnone]
    rfl
  refine ⟨?_, ?_, ?_, ?_⟩ <;>
    · unfold update
      rw [if_neg (by decide)]
      rw [hfm]
      simp [STAGEWIDTH]

theorem c10_no_player_defaults_to_zero_witness :
    update (List.replicate 80 ObjSpace) 'a' = action (List.replicate 80 ObjSpace) 0 (-1) 0 0 ∧
    update (List.replicate 80 ObjSpace) 's' = action (List.replicate 80 ObjSpace) 0 1 0 0 ∧
    update (List.replicate 80 ObjSpace) 'w' = action (List.replicate 80 ObjSpace) 0 0 0 (-1) ∧
    update (List.replicate 80 ObjSpace) 'z' = action (List.replicate 80 ObjSpace) 0 0 0 1 :=
  c10_no_player_defaults_to_zero (List.replicate 80 ObjSpace) (by decide)

/-- C1 (code bug evidence): the second bounds check in `Stage::action`
    compares the flat index `tp` plus the deltas against `[0, W*H)` instead
    of checking the push-destination coordinates against `[0,W) × [0,H)`.
    Consequences at concrete inputs: pushing the block at row 1 column 0
    leftward (push destination column −1, outside the grid) is not rejected —
    the block wraps around to index 9, the last cell of row 0, and the grid
    changes; pushing the block at row 0 column 3 upward (push destination
    row −1) computes the index `(-1)*10 + 3 = -7`, whose `as usize` cast is
    astronomically large, and the array access panics (modelled as `none`). -/
theorem c1_push_bounds_bug :
    (action (((List.replicate 80 ObjSpace).set 10 ObjBlock).set 11 ObjMan) 1 (-1) 1 0 ≠
      some (((List.replicate 80 ObjSpace).set 10 ObjBlock).set 11 ObjMan)) ∧
    ((action (((List.replicate 80 ObjSpace).set 10 ObjBlock).set 11 ObjMan) 1 (-1) 1 0).getD
      []).get? 9 = some ObjBlock ∧
    action (((List.replicate 80 ObjSpace).set 3 ObjBlock).set 13 ObjMan) 3 0 1 (-1) = none := by
  decide

/-- C2 (counterexample): a source text consisting of one row of 11 `#`
    characters — a row longer than `STAGEWIDTH = 10` — parses successfully
    (the 11th character is silently written into row 1), and a source text of
    9 rows (more than `STAGEHEIGHT = 8`, the 9th row empty) also parses
    successfully; neither fails as the claim asserts. -/
theorem c2_dimension_counterexample :
    (parseSrc ("###########").toList
      (List.replicate (STAGEWIDTH * STAGEHEIGHT) ObjUnknown)).isSome = true ∧
    (rustLines ("###########").toList).get? 0 = some ("###########").toList ∧
    ("###########").toList.length = 11 ∧
    (parseSrc ("#\n#\n#\n#\n#\n#\n#\n#\n\n").toList
      (List.replicate (STAGEWIDTH * STAGEHEIGHT) ObjUnknown)).isSome = true ∧
    (rustLines ("#\n#\n#\n#\n#\n#\n#\n#\n\n").toList).length = 9 := by
  decide

/-- C2 (amended): `Stage::initialize` fails — with a Rust index-out-of-bounds
    panic, there is no `DimensionMismatch` error in the program — exactly
    when parsing reaches a write index at or beyond `W*H = 80`; in
    particular any source whose row at index ≥ `STAGEHEIGHT = 8` is nonempty
    fails, while a row longer than `STAGEWIDTH` whose writes stay inside the
    array is accepted, its excess characters overwriting cells of the
    following rows. -/
theorem c2_amended_parse_fails (src : List Char) (g : List Object) (h80 : g.length = 80)
    (h : ∃ j l, (rustLines src).get? j = some l ∧ l ≠ [] ∧ 8 ≤ j) :
    parseSrc src g = none := by
  unfold parseSrc
  apply writeLines_overflow (rustLines src) 0 g h80
  obtain ⟨j, l, hj, hl, hge⟩ := h
  exact ⟨j, l, hj, hl, by omega⟩

theorem c2_amended_parse_fails_witness :
    parseSrc ("#\n#\n#\n#\n#\n#\n#\n#\n#").toList
      (List.replicate (STAGEWIDTH * STAGEHEIGHT) ObjUnknown) = none :=
  c2_amended_parse_fails _ _ (by decide) ⟨8, ['#'], by decide, by decide, by decide⟩

theorem get?_some_lt {α : Type} {g : List α} {i : Nat} {a : α}
    (h : g.get? i = some a) : i < g.length := by
  by_contra hle
  rw [List.get?_eq_none.mpr (by omega)] at h
  exact Option.noConfusion h

/-- C8: whenever the cell one step from the player in the move's direction
    holds `ObjWall`, `Stage::action` returns the grid unchanged (the target
    match falls into the catch-all arm). -/
theorem c8_wall_move_rejected (g : List Object) (x dx y dy : Int) (op : Object)
    (hdir : (dx = -1 ∧ dy = 0) ∨ (dx = 1 ∧ dy = 0) ∨ (dx = 0 ∧ dy = -1) ∨ (dx = 0 ∧ dy = 1))
    (hp : g.get? (asUsize (y * (STAGEWIDTH : Int) + x)) = some op)
    (hop : isPlayerB op = true)
    (hw : g.get? (asUsize ((y + dy) * (STAGEWIDTH : Int) + (x + dx))) = some ObjWall) :
    action g x dx y dy = some g := by
  simp only [action]
  split
  · rfl
  · simp only [hw]

theorem c8_wall_move_rejected_witness :
    action (((List.replicate 80 ObjSpace).set 0 ObjMan).set 1 ObjWall) 0 1 0 0 =
      some (((List.replicate 80 ObjSpace).set 0 ObjMan).set 1 ObjWall) :=
  c8_wall_move_rejected _ 0 1 0 0 ObjMan (Or.inr (Or.inl ⟨rfl, rfl⟩))
    (by decide) (by decide) (by decide)

/-- C9: with the player adjacent to a plain Goal, moving onto the Goal turns
    that cell into `ObjManOnGoal`, and moving straight back off turns it back
    into `ObjGoal`: the goal marking survives the round trip. -/
theorem c9_goal_round_trip (g : List Object) (x dx y dy : Int) (op : Object)
    (hx0 : 0 ≤ x) (hxW : x < 10) (hy0 : 0 ≤ y) (hyH : y < 8)
    (htx0 : 0 ≤ x + dx) (htxW : x + dx < 10) (hty0 : 0 ≤ y + dy) (htyH : y + dy < 8)
    (hp : g.get? (asUsize (y * (STAGEWIDTH : Int) + x)) = some op)
    (hop : isPlayerB op = true)
    (ht : g.get? (asUsize ((y + dy) * (STAGEWIDTH : Int) + (x + dx))) = some ObjGoal) :
    ∃ g1 g2, action g x dx y dy = some g1 ∧
      g1.get? (asUsize ((y + dy) * (STAGEWIDTH : Int) + (x + dx))) = some ObjManOnGoal ∧
      action g1 (x + dx) (-dx) (y + dy) (-dy) = some g2 ∧
      g2.get? (asUsize ((y + dy) * (STAGEWIDTH : Int) + (x + dx))) = some ObjGoal := by
  have hWn : (STAGEWIDTH : Int) = 10 := rfl
  have hHn : (STAGEHEIGHT : Int) = 8 := rfl
  have hcond1 : ¬(x + dx < 0 ∨ y + dy < 0 ∨ (STAGEWIDTH : Int) ≤ x + dx ∨
      (STAGEHEIGHT : Int) ≤ y + dy) := by
    rw [hWn, hHn]
    push_neg
    refine ⟨by omega, by omega, by omega, by omega⟩
  have hcond2 : ¬(x + dx + -dx < 0 ∨ y + dy + -dy < 0 ∨ (STAGEWIDTH : Int) ≤ x + dx + -dx ∨
      (STAGEHEIGHT : Int) ≤ y + dy + -dy) := by
    rw [hWn, hHn]
    push_neg
    refine ⟨by omega, by omega, by omega, by omega⟩
  have hidx2 : asUsize ((y + dy + -dy) * (STAGEWIDTH : Int) + (x + dx + -dx)) =
      asUsize (y * (STAGEWIDTH : Int) + x) := by
    congr 1
    ring
  have hPlt : asUsize (y * (STAGEWIDTH : Int) + x) < g.length := get?_some_lt hp
  have hTPlt : asUsize ((y + dy) * (STAGEWIDTH : Int) + (x + dx)) < g.length := get?_some_lt ht
  have hne : asUsize ((y + dy) * (STAGEWIDTH : Int) + (x + dx)) ≠
      asUsize (y * (STAGEWIDTH : Int) + x) := by
    intro he
    rw [he, hp] at ht
    injection ht with he2
    subst he2
    exact Bool.noConfusion hop
  have e1 : update_goal_for_man g (asUsize ((y + dy) * (STAGEWIDTH : Int) + (x + dx))) =
      some (g.set (asUsize ((y + dy) * (STAGEWIDTH : Int) + (x + dx))) ObjManOnGoal) := by
    have h0 := update_goal_for_man_run ht
    rw [if_pos rfl] at h0
    exact h0
  cases op
  case ObjMan =>
    have e2 : update_man_on_goal (g.set (asUsize ((y + dy) * (STAGEWIDTH : Int) + (x + dx))) ObjManOnGoal) (asUsize (y * (STAGEWIDTH : Int) + x)) = some ((g.set (asUsize ((y + dy) * (STAGEWIDTH : Int) + (x + dx))) ObjManOnGoal).set (asUsize (y * (STAGEWIDTH : Int) + x)) ObjSpace) := by
      have hread1 : (g.set (asUsize ((y + dy) * (STAGEWIDTH : Int) + (x + dx))) ObjManOnGoal).get? (asUsize (y * (STAGEWIDTH : Int) + x)) = some ObjMan := by
        rw [get?_set_other g _ _ ObjManOnGoal hne]
        exact hp
      have h0 := update_man_on_goal_run hread1
      rw [if_neg (by decide : ¬(ObjMan = ObjManOnGoal))] at h0
      exact h0
    have hact1 : action g x dx y dy = some ((g.set (asUsize ((y + dy) * (STAGEWIDTH : Int) + (x + dx))) ObjManOnGoal).set (asUsize (y * (STAGEWIDTH : Int) + x)) ObjSpace) := by
      simp only [action]
      rw [if_neg hcond1]
      simp only [ht, e1]
      exact e2
    have hg1TP : (((g.set (asUsize ((y + dy) * (STAGEWIDTH : Int) + (x + dx))) ObjManOnGoal).set (asUsize (y * (STAGEWIDTH : Int) + x)) ObjSpace)).get? (asUsize ((y + dy) * (STAGEWIDTH : Int) + (x + dx))) = some ObjManOnGoal := by
      rw [get?_set_other _ _ _ _ (Ne.symm hne)]
      exact get?_set_self g _ ObjManOnGoal hTPlt
    have hg1P : (((g.set (asUsize ((y + dy) * (STAGEWIDTH : Int) + (x + dx))) ObjManOnGoal).set (asUsize (y * (STAGEWIDTH : Int) + x)) ObjSpace)).get? (asUsize (y * (STAGEWIDTH : Int) + x)) = some ObjSpace := by
      apply get?_set_self
      rw [List.length_set]
      exact hPlt
    have e3 : update_goal_for_man ((g.set (asUsize ((y + dy) * (STAGEWIDTH : Int) + (x + dx))) ObjManOnGoal).set (asUsize (y * (STAGEWIDTH : Int) + x)) ObjSpace) (asUsize (y * (STAGEWIDTH : Int) + x)) = some (((g.set (asUsize ((y + dy) * (STAGEWIDTH : Int) + (x + dx))) ObjManOnGoal).set (asUsize (y * (STAGEWIDTH : Int) + x)) ObjSpace).set (asUsize (y * (STAGEWIDTH : Int) + x)) ObjMan) := by
      have h0 := update_goal_for_man_run hg1P
      rw [if_neg (by decide : ¬(ObjSpace = ObjGoal))] at h0
      exact h0
    have e4 : update_man_on_goal (((g.set (asUsize ((y + dy) * (STAGEWIDTH : Int) + (x + dx))) ObjManOnGoal).set (asUsize (y * (STAGEWIDTH : Int) + x)) ObjSpace).set (asUsize (y * (STAGEWIDTH : Int) + x)) ObjMan) (asUsize ((y + dy) * (STAGEWIDTH : Int) + (x + dx))) = some ((((g.set (asUsize ((y + dy) * (STAGEWIDTH : Int) + (x + dx))) ObjManOnGoal).set (asUsize (y * (STAGEWIDTH : Int) + x)) ObjSpace).set (asUsize (y * (STAGEWIDTH : Int) + x)) ObjMan).set (asUsize ((y + dy) * (STAGEWIDTH : Int) + (x + dx))) ObjGoal) := by
      have hread2 : ((((g.set (asUsize ((y + dy) * (STAGEWIDTH : Int) + (x + dx))) ObjManOnGoal).set (asUsize (y * (STAGEWIDTH : Int) + x)) ObjSpace).set (asUsize (y * (STAGEWIDTH : Int) + x)) ObjMan)).get? (asUsize ((y + dy) * (STAGEWIDTH : Int) + (x + dx))) = some ObjManOnGoal := by
        rw [get?_set_other _ _ _ _ (Ne.symm hne)]
        exact hg1TP
      have h0 := update_man_on_goal_run hread2
      rw [if_pos rfl] at h0
      exact h0
    have hact2 : action ((g.set (asUsize ((y + dy) * (STAGEWIDTH : Int) + (x + dx))) ObjManOnGoal).set (asUsize (y * (STAGEWIDTH : Int) + x)) ObjSpace) (x + dx) (-dx) (y + dy) (-dy) = some ((((g.set (asUsize ((y + dy) * (STAGEWIDTH : Int) + (x + dx))) ObjManOnGoal).set (asUsize (y * (STAGEWIDTH : Int) + x)) ObjSpace).set (asUsize (y * (STAGEWIDTH : Int) + x)) ObjMan).set (asUsize ((y + dy) * (STAGEWIDTH : Int) + (x + dx))) ObjGoal) := by
      simp only [action]
      rw [if_neg hcond2]
      simp only [hidx2, hg1P, e3]
      exact e4
    have hg2 : (((((g.set (asUsize ((y + dy) * (STAGEWIDTH : Int) + (x + dx))) ObjManOnGoal).set (asUsize (y * (STAGEWIDTH : Int) + x)) ObjSpace).set (asUsize (y * (STAGEWIDTH : Int) + x)) ObjMan).set (asUsize ((y + dy) * (STAGEWIDTH : Int) + (x + dx))) ObjGoal)).get? (asUsize ((y + dy) * (STAGEWIDTH : Int) + (x + dx))) = some ObjGoal := by
      apply get?_set_self
      rw [List.length_set, List.length_set, List.length_set]
      exact hTPlt
    exact ⟨_, _, hact1, hg1TP, hact2, hg2⟩
  case ObjManOnGoal =>
    have e2 : update_man_on_goal (g.set (asUsize ((y + dy) * (STAGEWIDTH : Int) + (x + dx))) ObjManOnGoal) (asUsize (y * (STAGEWIDTH : Int) + x)) = some ((g.set (asUsize ((y + dy) * (STAGEWIDTH : Int) + (x + dx))) ObjManOnGoal).set (asUsize (y * (STAGEWIDTH : Int) + x)) ObjGoal) := by
      have hread1 : (g.set (asUsize ((y + dy) * (STAGEWIDTH : Int) + (x + dx))) ObjManOnGoal).get? (asUsize (y * (STAGEWIDTH : Int) + x)) = some ObjManOnGoal := by
        rw [get?_set_other g _ _ ObjManOnGoal hne]
        exact hp
      have h0 := update_man_on_goal_run hread1
      rw [if_pos rfl] at h0
      exact h0
    have hact1 : action g x dx y dy = some ((g.set (asUsize ((y + dy) * (STAGEWIDTH : Int) + (x + dx))) ObjManOnGoal).set (asUsize (y * (STAGEWIDTH : Int) + x)) ObjGoal) := by
      simp only [action]
      rw [if_neg hcond1]
      simp only [ht, e1]
      exact e2
    have hg1TP : (((g.set (asUsize ((y + dy) * (STAGEWIDTH : Int) + (x + dx))) ObjManOnGoal).set (asUsize (y * (STAGEWIDTH : Int) + x)) ObjGoal)).get? (asUsize ((y + dy) * (STAGEWIDTH : Int) + (x + dx))) = some ObjManOnGoal := by
      rw [get?_set_other _ _ _ _ (Ne.symm hne)]
      exact get?_set_self g _ ObjManOnGoal hTPlt
    have hg1P : (((g.set (asUsize ((y + dy) * (STAGEWIDTH : Int) + (x + dx))) ObjManOnGoal).set (asUsize (y * (STAGEWIDTH : Int) + x)) ObjGoal)).get? (asUsize (y * (STAGEWIDTH : Int) + x)) = some ObjGoal := by
      apply get?_set_self
      rw [List.length_set]
      exact hPlt
    have e3 : update_goal_for_man ((g.set (asUsize ((y + dy) * (STAGEWIDTH : Int) + (x + dx))) ObjManOnGoal).set (asUsize (y * (STAGEWIDTH : Int) + x)) ObjGoal) (asUsize (y * (STAGEWIDTH : Int) + x)) = some (((g.set (asUsize ((y + dy) * (STAGEWIDTH : Int) + (x + dx))) ObjManOnGoal).set (asUsize (y * (STAGEWIDTH : Int) + x)) ObjGoal).set (asUsize (y * (STAGEWIDTH : Int) + x)) ObjManOnGoal) := by
      have h0 := update_goal_for_man_run hg1P
      rw [if_pos rfl] at h0
      exact h0
    have e4 : update_man_on_goal (((g.set (asUsize ((y + dy) * (STAGEWIDTH : Int) + (x + dx))) ObjManOnGoal).set (asUsize (y * (STAGEWIDTH : Int) + x)) ObjGoal).set (asUsize (y * (STAGEWIDTH : Int) + x)) ObjManOnGoal) (asUsize ((y + dy) * (STAGEWIDTH : Int) + (x + dx))) = some ((((g.set (asUsize ((y + dy) * (STAGEWIDTH : Int) + (x + dx))) ObjManOnGoal).set (asUsize (y * (STAGEWIDTH : Int) + x)) ObjGoal).set (asUsize (y * (STAGEWIDTH : Int) + x)) ObjManOnGoal).set (asUsize ((y + dy) * (STAGEWIDTH : Int) + (x + dx))) ObjGoal) := by
      have hread2 : ((((g.set (asUsize ((y + dy) * (STAGEWIDTH : Int) + (x + dx))) ObjManOnGoal).set (asUsize (y * (STAGEWIDTH : Int) + x)) ObjGoal).set (asUsize (y * (STAGEWIDTH : Int) + x)) ObjManOnGoal)).get? (asUsize ((y + dy) * (STAGEWIDTH : Int) + (x + dx))) = some ObjManOnGoal := by
        rw [get?_set_other _ _ _ _ (Ne.symm hne)]
        exact hg1TP
      have h0 := update_man_on_goal_run hread2
      rw [if_pos rfl] at h0
      exact h0
    have hact2 : action ((g.set (asUsize ((y + dy) * (STAGEWIDTH : Int) + (x + dx))) ObjManOnGoal).set (asUsize (y * (STAGEWIDTH : Int) + x)) ObjGoal) (x + dx) (-dx) (y + dy) (-dy) = some ((((g.set (asUsize ((y + dy) * (STAGEWIDTH : Int) + (x + dx))) ObjManOnGoal).set (asUsize (y * (STAGEWIDTH : Int) + x)) ObjGoal).set (asUsize (y * (STAGEWIDTH : Int) + x)) ObjManOnGoal).set (asUsize ((y + dy) * (STAGEWIDTH : Int) + (x + dx))) ObjGoal) := by
      simp only [action]
      rw [if_neg hcond2]
      simp only [hidx2, hg1P, e3]
      exact e4
    have hg2 : (((((g.set (asUsize ((y + dy) * (STAGEWIDTH : Int) + (x + dx))) ObjManOnGoal).set (asUsize (y * (STAGEWIDTH : Int) + x)) ObjGoal).set (asUsize (y * (STAGEWIDTH : Int) + x)) ObjManOnGoal).set (asUsize ((y + dy) * (STAGEWIDTH : Int) + (x + dx))) ObjGoal)).get? (asUsize ((y + dy) * (STAGEWIDTH : Int) + (x + dx))) = some ObjGoal := by
      apply get?_set_self
      rw [List.length_set, List.length_set, List.length_set]
      exact hTPlt
    exact ⟨_, _, hact1, hg1TP, hact2, hg2⟩
  case ObjSpace => exact Bool.noConfusion hop
  case ObjWall => exact Bool.noConfusion hop
  case ObjGoal => exact Bool.noConfusion hop
  case ObjBlock => exact Bool.noConfusion hop
  case ObjBlockOnGoal => exact Bool.noConfusion hop
  case ObjUnknown => exact Bool.noConfusion hop

theorem c9_goal_round_trip_witness :
    ∃ g1 g2,
      action (((List.replicate 80 ObjSpace).set 11 ObjMan).set 12 ObjGoal) 1 1 1 0 = some g1 ∧
      g1.get? (asUsize ((1 + 0) * (STAGEWIDTH : Int) + (1 + 1))) = some ObjManOnGoal ∧
      action g1 (1 + 1) (-1) (1 + 0) (-0) = some g2 ∧
      g2.get? (asUsize ((1 + 0) * (STAGEWIDTH : Int) + (1 + 1))) = some ObjGoal :=
  c9_goal_round_trip (((List.replicate 80 ObjSpace).set 11 ObjMan).set 12 ObjGoal)
    1 1 1 0 ObjMan (by decide) (by decide) (by decide) (by decide)
    (by decide) (by decide) (by decide) (by decide) (by decide) rfl (by decide)

/-- C6: when the player faces a plain `ObjBlock` whose push destination (two
    steps away, inside the grid) is a plain `ObjGoal`, `Stage::action` moves
    the block there as `ObjBlockOnGoal`; and `Stage::check_clear` returns
    `true` on any grid in which no plain `ObjBlock` remains. -/
theorem c6_push_block_onto_goal (g : List Object) (x dx y dy : Int) (op : Object)
    (hdir : (dx = -1 ∧ dy = 0) ∨ (dx = 1 ∧ dy = 0) ∨ (dx = 0 ∧ dy = -1) ∨ (dx = 0 ∧ dy = 1))
    (hx0 : 0 ≤ x) (hxW : x < 10) (hy0 : 0 ≤ y) (hyH : y < 8)
    (htx0 : 0 ≤ x + dx) (htxW : x + dx < 10) (hty0 : 0 ≤ y + dy) (htyH : y + dy < 8)
    (hpx0 : 0 ≤ x + dx + dx) (hpxW : x + dx + dx < 10)
    (hpy0 : 0 ≤ y + dy + dy) (hpyH : y + dy + dy < 8)
    (hp : g.get? (asUsize (y * (STAGEWIDTH : Int) + x)) = some op)
    (hop : isPlayerB op = true)
    (ht : g.get? (asUsize ((y + dy) * (STAGEWIDTH : Int) + (x + dx))) = some ObjBlock)
    (ht2 : g.get? (asUsize ((y + dy + dy) * (STAGEWIDTH : Int) + (x + dx + dx))) = some ObjGoal) :
    (∃ g', action g x dx y dy = some g' ∧
      g'.get? (asUsize ((y + dy + dy) * (STAGEWIDTH : Int) + (x + dx + dx))) =
        some ObjBlockOnGoal) ∧
    (∀ h : List Object, ObjBlock ∉ h → check_clear h = true) := by
  have hWn : (STAGEWIDTH : Int) = 10 := rfl
  have hHn : (STAGEHEIGHT : Int) = 8 := rfl
  have hcond1 : ¬(x + dx < 0 ∨ y + dy < 0 ∨ (STAGEWIDTH : Int) ≤ x + dx ∨
      (STAGEHEIGHT : Int) ≤ y + dy) := by
    rw [hWn, hHn]
    push_neg
    refine ⟨by omega, by omega, by omega, by omega⟩
  have hBcast : (((asUsize ((y + dy) * (STAGEWIDTH : Int) + (x + dx))) : Nat) : Int) = (y + dy) * (STAGEWIDTH : Int) + (x + dx) := by
    have h1 : asUsize ((y + dy) * (STAGEWIDTH : Int) + (x + dx)) =
        ((y + dy) * (STAGEWIDTH : Int) + (x + dx)).toNat := by
      apply asUsize_of_nonneg
      rw [hWn]
      omega
    rw [h1]
    apply Int.toNat_of_nonneg
    rw [hWn]
    omega
  have hWHcast : ((STAGEWIDTH * STAGEHEIGHT : Nat) : Int) = 80 := rfl
  have hHWcast : ((STAGEHEIGHT * STAGEWIDTH : Nat) : Int) = 80 := rfl
  have hcond2 : ¬(((asUsize ((y + dy) * (STAGEWIDTH : Int) + (x + dx))) : Int) + dx < 0 ∨ ((asUsize ((y + dy) * (STAGEWIDTH : Int) + (x + dx))) : Int) + dy < 0 ∨
      ((STAGEWIDTH * STAGEHEIGHT : Nat) : Int) ≤ ((asUsize ((y + dy) * (STAGEWIDTH : Int) + (x + dx))) : Int) + dx ∨
      ((STAGEHEIGHT * STAGEWIDTH : Nat) : Int) ≤ ((asUsize ((y + dy) * (STAGEWIDTH : Int) + (x + dx))) : Int) + dy) := by
    rw [hBcast, hWHcast, hHWcast, hWn]
    push_neg
    rcases hdir with ⟨h1, h2⟩ | ⟨h1, h2⟩ | ⟨h1, h2⟩ | ⟨h1, h2⟩ <;> subst h1 <;> subst h2 <;>
      refine ⟨by omega, by omega, by omega, by omega⟩
  have hPlt : (asUsize (y * (STAGEWIDTH : Int) + x)) < g.length := get?_some_lt hp
  have hTPlt : (asUsize ((y + dy) * (STAGEWIDTH : Int) + (x + dx))) < g.length := get?_some_lt ht
  have hTP2lt : (asUsize ((y + dy + dy) * (STAGEWIDTH : Int) + (x + dx + dx))) < g.length := get?_some_lt ht2
  have hne21 : (asUsize ((y + dy + dy) * (STAGEWIDTH : Int) + (x + dx + dx))) ≠ (asUsize ((y + dy) * (STAGEWIDTH : Int) + (x + dx))) := by
    intro he
    rw [he, ht] at ht2
    exact Option.noConfusion ht2 fun he2 => Object.noConfusion he2
  have hne2P : (asUsize ((y + dy + dy) * (STAGEWIDTH : Int) + (x + dx + dx))) ≠ (asUsize (y * (STAGEWIDTH : Int) + x)) := by
    intro he
    rw [he, hp] at ht2
    injection ht2 with he2
    subst he2
    exact Bool.noConfusion hop
  have hne1P : (asUsize ((y + dy) * (STAGEWIDTH : Int) + (x + dx))) ≠ (asUsize (y * (STAGEWIDTH : Int) + x)) := by
    intro he
    rw [he, hp] at ht
    injection ht with he2
    subst he2
    exact Bool.noConfusion hop
  have eA : update_goal_for_block g (asUsize ((y + dy + dy) * (STAGEWIDTH : Int) + (x + dx + dx))) = some (g.set (asUsize ((y + dy + dy) * (STAGEWIDTH : Int) + (x + dx + dx))) ObjBlockOnGoal) := by
    have h0 := update_goal_for_block_run ht2
    rw [if_pos rfl] at h0
    exact h0
  have eB : update_block_on_goal (g.set (asUsize ((y + dy + dy) * (STAGEWIDTH : Int) + (x + dx + dx))) ObjBlockOnGoal) (asUsize ((y + dy) * (STAGEWIDTH : Int) + (x + dx))) = some ((g.set (asUsize ((y + dy + dy) * (STAGEWIDTH : Int) + (x + dx + dx))) ObjBlockOnGoal).set (asUsize ((y + dy) * (STAGEWIDTH : Int) + (x + dx))) ObjMan) := by
    have hread : ((g.set (asUsize ((y + dy + dy) * (STAGEWIDTH : Int) + (x + dx + dx))) ObjBlockOnGoal)).get? (asUsize ((y + dy) * (STAGEWIDTH : Int) + (x + dx))) = some ObjBlock := by
      rw [get?_set_other g _ _ ObjBlockOnGoal hne21]
      exact ht
    have h0 := update_block_on_goal_run hread
    rw [if_neg (by decide : ¬(ObjBlock = ObjBlockOnGoal))] at h0
    exact h0
  have eC : update_man_on_goal ((g.set (asUsize ((y + dy + dy) * (STAGEWIDTH : Int) + (x + dx + dx))) ObjBlockOnGoal).set (asUsize ((y + dy) * (STAGEWIDTH : Int) + (x + dx))) ObjMan) (asUsize (y * (STAGEWIDTH : Int) + x)) = some (((g.set (asUsize ((y + dy + dy) * (STAGEWIDTH : Int) + (x + dx + dx))) ObjBlockOnGoal).set (asUsize ((y + dy) * (STAGEWIDTH : Int) + (x + dx))) ObjMan).set (asUsize (y * (STAGEWIDTH : Int) + x)) (if op = ObjManOnGoal then ObjGoal else ObjSpace)) := by
    have hread : (((g.set (asUsize ((y + dy + dy) * (STAGEWIDTH : Int) + (x + dx + dx))) ObjBlockOnGoal).set (asUsize ((y + dy) * (STAGEWIDTH : Int) + (x + dx))) ObjMan)).get? (asUsize (y * (STAGEWIDTH : Int) + x)) = some op := by
      rw [get?_set_other _ _ _ _ hne1P, get?_set_other g _ _ ObjBlockOnGoal hne2P]
      exact hp
    exact update_man_on_goal_run hread
  have hact : action g x dx y dy = some (((g.set (asUsize ((y + dy + dy) * (STAGEWIDTH : Int) + (x + dx + dx))) ObjBlockOnGoal).set (asUsize ((y + dy) * (STAGEWIDTH : Int) + (x + dx))) ObjMan).set (asUsize (y * (STAGEWIDTH : Int) + x)) (if op = ObjManOnGoal then ObjGoal else ObjSpace)) := by
    simp only [action]
    rw [if_neg hcond1]
    simp only [ht]
    rw [if_neg hcond2]
    simp only [ht2, eA, eB]
    exact eC
  have hfinal : ((((g.set (asUsize ((y + dy + dy) * (STAGEWIDTH : Int) + (x + dx + dx))) ObjBlockOnGoal).set (asUsize ((y + dy) * (STAGEWIDTH : Int) + (x + dx))) ObjMan).set (asUsize (y * (STAGEWIDTH : Int) + x)) (if op = ObjManOnGoal then ObjGoal else ObjSpace))).get? (asUsize ((y + dy + dy) * (STAGEWIDTH : Int) + (x + dx + dx))) = some ObjBlockOnGoal := by
    rw [get?_set_other _ _ _ _ (Ne.symm hne2P), get?_set_other _ _ _ _ (Ne.symm hne21)]
    exact get?_set_self g _ ObjBlockOnGoal hTP2lt
  exact ⟨⟨_, hact, hfinal⟩, fun h hmem => (check_clear_iff h).mpr hmem⟩

theorem c6_push_block_onto_goal_witness :
    (∃ g', action ((((List.replicate 80 ObjSpace).set 11 ObjMan).set 12 ObjBlock).set
        13 ObjGoal) 1 1 1 0 = some g' ∧
      g'.get? (asUsize ((1 + 0 + 0) * (STAGEWIDTH : Int) + (1 + 1 + 1))) =
        some ObjBlockOnGoal) ∧
    (∀ h : List Object, ObjBlock ∉ h → check_clear h = true) :=
  c6_push_block_onto_goal
    ((((List.replicate 80 ObjSpace).set 11 ObjMan).set 12 ObjBlock).set 13 ObjGoal)
    1 1 1 0 ObjMan (Or.inr (Or.inl ⟨rfl, rfl⟩))
    (by decide) (by decide) (by decide) (by decide)
    (by decide) (by decide) (by decide) (by decide)
    (by decide) (by decide) (by decide) (by decide)
    (by decide) rfl (by decide) (by decide)
